import Mathlib

/-!
Verification model of the `windows-ctl` crate (Windows Certificate Trust
List parsing) and its `ctltool` consumer.

The development shallowly embeds:
  - the byte-level DER parsing used for the doubly-encoded meta-EKU
    attribute values (`MetaEku ::= SEQUENCE OF OBJECT IDENTIFIER`);
  - the structured data model (`TrustedSubject`, `CertificateTrustList`)
    and the schema-level DER field walk (OPTIONAL / DEFAULT elision);
  - the PKCS#7 envelope dispatch of `CertificateTrustList::from_der`;
  - the EKU extraction iterator chain of
    `TrustedSubject::extended_key_usages`;
  - the purpose filtering performed by `ctltool`'s `fetch` subcommand.

Object identifiers are represented, as in the `der` crate, by their DER
content bytes; equality of identifiers is byte-for-byte equality.
-/

namespace WindowsCtl

/-- Bytes are modelled as natural numbers (always below 256 in practice). -/
abbrev Bytes := List Nat

/-- An object identifier, represented by its DER content octets
(the representation used by `der::asn1::ObjectIdentifier`). -/
abbrev OID := List Nat

/-- Error kinds produced by DER decoding (the `der::Error` surface that the
crate can observe; kinds, not the crate's concrete error codes). -/
inductive DerError where
  /-- Input ended before the announced structure was complete. -/
  | truncated : DerError
  /-- Indefinite lengths are forbidden by DER. -/
  | indefiniteLength : DerError
  /-- Length field wider than the decoder supports. -/
  | lengthTooLong : DerError
  /-- Long-form length that DER requires in short form, or with a leading
  zero length octet. -/
  | nonMinimalLength : DerError
  /-- A tag other than the one the schema expects at this position. -/
  | unexpectedTag : DerError
  /-- Object identifier content octets that are not a valid encoding. -/
  | invalidOid : DerError
  /-- Bytes remaining after the outermost value was fully decoded. -/
  | trailingData : DerError
  /-- INTEGER content octets that are not minimal two's complement. -/
  | nonCanonicalInteger : DerError
  /-- BOOLEAN content octets other than a single 0x00 or 0xFF. -/
  | invalidBoolean : DerError
  /-- An INTEGER value outside the schema's enumeration. -/
  | unknownVersion : DerError
deriving DecidableEq, Repr

/-- Decode a DER length: short form below 128 directly, long form with an
explicit count of length octets; indefinite form (0x80) is rejected, as are
non-minimal long forms.  Returns the length and the remaining bytes. -/
def parseLength : Bytes → Except DerError (Nat × Bytes)
  | [] => .error .truncated
  | b :: rest =>
    if b < 128 then .ok (b, rest)
    else if b = 128 then .error .indefiniteLength
    else
      let n := b - 128
      if 4 < n then .error .lengthTooLong
      else if rest.length < n then .error .truncated
      else
        let lenBytes := rest.take n
        let value := lenBytes.foldl (fun acc x => acc * 256 + x) 0
        if lenBytes.headD 0 = 0 then .error .nonMinimalLength
        else if value < 128 then .error .nonMinimalLength
        else .ok (value, rest.drop n)

/-- Validate object-identifier content octets the way
`der::asn1::ObjectIdentifier` does on decode: non-empty, at most 39 octets,
and the final octet must not have its continuation bit set. -/
def checkOidContent (c : Bytes) : Except DerError OID :=
  if c = [] then .error .invalidOid
  else if 39 < c.length then .error .invalidOid
  else if 128 ≤ c.getLast! then .error .invalidOid
  else .ok c

/-- Decode a run of TLV-encoded OBJECT IDENTIFIER elements until the input
is exhausted (the body of a `SEQUENCE OF OBJECT IDENTIFIER`).  The fuel
argument bounds recursion; each element consumes at least one byte, so fuel
equal to the input length always suffices. -/
def parseOidSeq : Nat → Bytes → Except DerError (List OID)
  | _, [] => .ok []
  | 0, _ :: _ => .error .truncated
  | fuel + 1, t :: rest =>
    if t = 6 then
      match parseLength rest with
      | .error e => .error e
      | .ok (len, rest2) =>
        if rest2.length < len then .error .truncated
        else
          match checkOidContent (rest2.take len) with
          | .error e => .error e
          | .ok oid =>
            match parseOidSeq fuel (rest2.drop len) with
            | .error e => .error e
            | .ok oids => .ok (oid :: oids)
    else .error .unexpectedTag

/-- Decode of `MetaEku ::= SEQUENCE OF OBJECT IDENTIFIER` from a complete
DER document, as `MetaEku::from_der` does: a SEQUENCE tag, a valid length
that accounts for every remaining byte (trailing bytes are an error), and a
body of OBJECT IDENTIFIER elements. -/
def metaEkuFromDer (b : Bytes) : Except DerError (List OID) :=
  match b with
  | [] => .error .truncated
  | t :: rest =>
    if t = 48 then
      match parseLength rest with
      | .error e => .error e
      | .ok (len, rest2) =>
        if rest2.length < len then .error .truncated
        else if len < rest2.length then .error .trailingData
        else parseOidSeq rest2.length rest2
    else .error .unexpectedTag

/-- High-order octets of the base-128 encoding of an arc (continuation bit
set on each).  Fuel-bounded recursion on the value. -/
def arcHighBytes : Nat → Nat → List Nat
  | 0, _ => []
  | _ + 1, 0 => []
  | fuel + 1, n => arcHighBytes fuel (n / 128) ++ [128 + n % 128]

/-- Base-128 encoding of a single object-identifier arc. -/
def arcBytes (n : Nat) : List Nat :=
  arcHighBytes n (n / 128) ++ [n % 128]

/-- Content octets of the object identifier with the given arcs: the first
two arcs pack into one value as `first * 40 + second`, every arc is then
base-128 encoded. -/
def oidArcsToBytes : List Nat → OID
  | a :: b :: rest => arcBytes (40 * a + b) ++ rest.flatMap arcBytes
  | _ => []

/-- The object identifier `1.3.6.1.4.1.311.10.1` for `CertificateTrustList`
(`MS_CERT_TRUST_LIST_OID`). -/
def msCertTrustListOid : OID := oidArcsToBytes [1, 3, 6, 1, 4, 1, 311, 10, 1]

/-- The object identifier `1.3.6.1.4.1.311.10.11.9` for an attribute
containing `ExtendedKeyUsage` identifiers (`MS_CERT_PROP_ID_METAEKUS_OID`). -/
def msCertPropIdMetaEkusOid : OID := oidArcsToBytes [1, 3, 6, 1, 4, 1, 311, 10, 11, 9]

/-- A decoded DER element: either a primitive with content octets or a
constructed value with children.  A `der::asn1::Any` (tag plus raw content)
appears here as a primitive element. -/
inductive DerElem where
  /-- Primitive element: identifier octet and content octets. -/
  | prim (tag : Nat) (content : Bytes) : DerElem
  /-- Constructed element: identifier octet and child elements. -/
  | cons (tag : Nat) (children : List DerElem) : DerElem

/-- An X.509 attribute: a type identifier and a set of values, each value a
type-erased DER element (`x509_cert::attr::Attribute` with `Any` values);
the set is modelled as a list in stored order. -/
structure AttributeM where
  /-- Attribute type identifier. -/
  oid : OID
  /-- Attribute values (at least one in well-formed DER; not enforced by
  the type, matching `SetOfVec`). -/
  values : List DerElem

/-- One entry of a certificate trust list (`TrustedSubject`): an opaque
certificate identifier and optional attributes. -/
structure TrustedSubject where
  /-- Certificate identifier octets (`SubjectIdentifier ::= OCTETSTRING`). -/
  identifier : Bytes
  /-- Any X.509 attributes attached to this subject. -/
  attributes : Option (List AttributeM)

/-- Re-decode of a type-erased value as an OCTET STRING
(`Any::decode_as::<OctetStringRef>`): primitive tag 0x04 yields the content
octets, anything else is an error. -/
def decodeAsOctetString : DerElem → Except DerError Bytes
  | .prim 4 c => .ok c
  | _ => .error .unexpectedTag

/-- The iterator of a `Result`: one element when `Ok`, none when `Err`
(this is how `Iterator::flat_map` consumes a closure returning `Result`). -/
def exceptToList {ε α : Type} : Except ε α → List α
  | .error _ => []
  | .ok a => [a]

/-- The `flatten_ok` adapter of itertools on one element: an `Ok` list
flattens to its elements wrapped in `Ok`, an `Err` stays a single `Err`. -/
def flattenOk {ε α : Type} : Except ε (List α) → List (Except ε α)
  | .ok xs => xs.map Except.ok
  | .error e => [.error e]

/-- The values reached by the first three stages of
`TrustedSubject::extended_key_usages`: iterate the optional attribute list,
keep attributes whose type is `MS_CERT_PROP_ID_METAEKUS_OID`, and iterate
their values. -/
def metaEkuValues (ts : TrustedSubject) : List DerElem :=
  ((ts.attributes.toList.flatMap fun attrs => attrs).filter
      fun attr => attr.oid = msCertPropIdMetaEkusOid).flatMap
    fun attr => attr.values

/-- Model of `TrustedSubject::extended_key_usages`: for each candidate
value, decode it as an OCTET STRING and map the wrapped bytes through
`MetaEku::from_der`; the outer `Result` is flattened through its iterator
(dropping the element when the OCTET STRING decode fails), then
`flatten_ok` spreads decoded identifier lists and keeps inner errors. -/
def extendedKeyUsages (ts : TrustedSubject) : List (Except DerError OID) :=
  ((metaEkuValues ts).flatMap fun value =>
      exceptToList ((decodeAsOctetString value).map metaEkuFromDer)).flatMap
    flattenOk

/-- Version identifier of a certificate trust list
(`CTLVersion ::= INTEGER { v1(0) }`); `V1` is the default. -/
inductive CtlVersion where
  /-- Version 1, encoded as INTEGER 0. -/
  | v1 : CtlVersion
deriving DecidableEq, Repr

/-- An X.509 `Time` value (`ChoiceOfTime`): a UTCTime or a GeneralizedTime,
carrying its content octets so that original precision round-trips. -/
inductive TimeM where
  /-- UTCTime (tag 0x17) with content octets. -/
  | utcTime (content : Bytes) : TimeM
  /-- GeneralizedTime (tag 0x18) with content octets. -/
  | generalTime (content : Bytes) : TimeM
deriving DecidableEq, Repr

/-- An `AlgorithmIdentifier` with type-erased parameters
(`spki::AlgorithmIdentifier<Any>`). -/
structure AlgorithmIdentifierM where
  /-- Algorithm object identifier. -/
  algorithm : OID
  /-- Optional, unmodeled parameters. -/
  parameters : Option DerElem

/-- The certificate trust list structure (`CertificateTrustList`), with
the field order and OPTIONAL / DEFAULT markings of the MS-CAESO schema. -/
structure CertificateTrustList where
  /-- Version, DEFAULT v1. -/
  version : CtlVersion
  /-- X.509-style usage (`SubjectUsage ::= EnhancedKeyUsage`, a SEQUENCE
  of object identifiers). -/
  subjectUsage : List OID
  /-- Optional list identifier octets. -/
  listIdentifier : Option Bytes
  /-- Optional sequence number, kept as unsigned INTEGER content octets. -/
  sequenceNumber : Option Bytes
  /-- Time this CTL was produced. -/
  thisUpdate : TimeM
  /-- Optional time of the next CTL. -/
  nextUpdate : Option TimeM
  /-- Digest algorithm for subject identifiers. -/
  subjectAlgorithm : AlgorithmIdentifierM
  /-- Optional list of trusted subjects. -/
  trustedSubjects : Option (List TrustedSubject)
  /-- Optional extensions, wrapped in a context-specific [0] EXPLICIT tag
  and kept type-erased. -/
  ctlExtensions : Option DerElem

/-- Encode an object identifier as a DER element. -/
def encodeOid (o : OID) : DerElem := .prim 6 o

/-- Encode a `Time` value: UTCTime uses tag 0x17, GeneralizedTime 0x18. -/
def encodeTime : TimeM → DerElem
  | .utcTime c => .prim 23 c
  | .generalTime c => .prim 24 c

/-- Encode an `AlgorithmIdentifier`: a SEQUENCE of the algorithm OID and,
when present, the raw parameters element. -/
def encodeAlgId (a : AlgorithmIdentifierM) : DerElem :=
  .cons 48 (encodeOid a.algorithm :: a.parameters.toList)

/-- Encode an attribute: a SEQUENCE of the type OID and the SET of values. -/
def encodeAttribute (a : AttributeM) : DerElem :=
  .cons 48 [encodeOid a.oid, .cons 49 a.values]

/-- Encode a trusted subject: a SEQUENCE of the identifier OCTET STRING
and, when present, the SET of attributes. -/
def encodeTrustedSubject (ts : TrustedSubject) : DerElem :=
  .cons 48 (DerElem.prim 4 ts.identifier ::
    (ts.attributes.map fun attrs => DerElem.cons 49 (attrs.map encodeAttribute)).toList)

/-- Encode a version value as a DER INTEGER. -/
def encodeVersion : CtlVersion → DerElem
  | .v1 => .prim 2 [0]

/-- Field list contributed by the DEFAULT version field: the canonical
encoder omits the field when its value equals the default `v1`. -/
def encodeVersionPart (v : CtlVersion) : List DerElem :=
  if v = CtlVersion.v1 then [] else [encodeVersion v]

/-- Field list of a `CertificateTrustList` after the version field: each
OPTIONAL field contributes no element when absent; the extensions field is
wrapped in a [0] EXPLICIT context tag (0xA0). -/
def encodeCtlRest (v : CertificateTrustList) : List DerElem :=
  DerElem.cons 48 (v.subjectUsage.map encodeOid) ::
    ((v.listIdentifier.map fun b => DerElem.prim 4 b).toList
    ++ (v.sequenceNumber.map fun b => DerElem.prim 2 b).toList
    ++ [encodeTime v.thisUpdate]
    ++ (v.nextUpdate.map encodeTime).toList
    ++ [encodeAlgId v.subjectAlgorithm]
    ++ (v.trustedSubjects.map fun l => DerElem.cons 48 (l.map encodeTrustedSubject)).toList
    ++ (v.ctlExtensions.map fun a => DerElem.cons 160 [a]).toList)

/-- Encode a `CertificateTrustList` as a DER SEQUENCE element. -/
def encodeCtl (v : CertificateTrustList) : DerElem :=
  .cons 48 (encodeVersionPart v.version ++ encodeCtlRest v)

/-- Decode an object identifier element. -/
def decodeOidElem : DerElem → Except DerError OID
  | .prim 6 c => .ok c
  | _ => .error .unexpectedTag

/-- Decode every element of a list, failing on the first error. -/
def decodeEach {α : Type} (dec : DerElem → Except DerError α) :
    List DerElem → Except DerError (List α)
  | [] => .ok []
  | x :: xs =>
    match dec x with
    | .error e => .error e
    | .ok a =>
      match decodeEach dec xs with
      | .error e => .error e
      | .ok ys => .ok (a :: ys)

/-- Decode a `Time` element from its UTCTime or GeneralizedTime tag. -/
def decodeTime : DerElem → Except DerError TimeM
  | .prim 23 c => .ok (.utcTime c)
  | .prim 24 c => .ok (.generalTime c)
  | _ => .error .unexpectedTag

/-- Decode an `AlgorithmIdentifier` element. -/
def decodeAlgId : DerElem → Except DerError AlgorithmIdentifierM
  | .cons 48 (oidEl :: rest) =>
    (match decodeOidElem oidEl with
    | .error e => .error e
    | .ok oid =>
      match rest with
      | [] => .ok ⟨oid, none⟩
      | [p] => .ok ⟨oid, some p⟩
      | _ => .error .trailingData)
  | _ => .error .unexpectedTag

/-- Decode an attribute element. -/
def decodeAttribute : DerElem → Except DerError AttributeM
  | .cons 48 [oidEl, .cons 49 vals] =>
    (match decodeOidElem oidEl with
    | .error e => .error e
    | .ok oid => .ok ⟨oid, vals⟩)
  | _ => .error .unexpectedTag

/-- Decode a trusted-subject element: identifier OCTET STRING and an
optional attribute SET, detected by the presence of a further element. -/
def decodeTrustedSubject : DerElem → Except DerError TrustedSubject
  | .cons 48 (DerElem.prim 4 ident :: rest) =>
    (match rest with
    | [] => .ok ⟨ident, none⟩
    | [DerElem.cons 49 attrEls] =>
      (match decodeEach decodeAttribute attrEls with
      | .error e => .error e
      | .ok attrs => .ok ⟨ident, some attrs⟩)
    | _ => .error .unexpectedTag)
  | _ => .error .unexpectedTag

/-- Outermost identifier octet of an element. -/
def derTag : DerElem → Nat
  | .prim t _ => t
  | .cons t _ => t

/-- Lookahead consumption of an OPTIONAL field: the next element is taken
exactly when its tag is the expected one; absence is inferred from a tag
mismatch, never from a sentinel. -/
def takeOptTag (tag : Nat) (fs : List DerElem) : Option DerElem × List DerElem :=
  match fs with
  | f :: rest => if derTag f = tag then (some f, rest) else (none, fs)
  | [] => (none, fs)

/-- Lookahead consumption of an OPTIONAL field with several accepted tags
(used for the `Time` choice). -/
def takeOptMem (tags : List Nat) (fs : List DerElem) : Option DerElem × List DerElem :=
  match fs with
  | f :: rest => if derTag f ∈ tags then (some f, rest) else (none, fs)
  | [] => (none, fs)

/-- Decode INTEGER content octets as a `CtlVersion`: only the value 0
(`v1`) is a known version. -/
def decodeVersionContent (c : Bytes) : Except DerError CtlVersion :=
  match c with
  | [0] => .ok .v1
  | _ => .error .unknownVersion

/-- Decode an already-taken optional element as OCTET STRING / INTEGER
content octets. -/
def decodeOptContent (o : Option DerElem) : Except DerError (Option Bytes) :=
  match o with
  | none => .ok none
  | some (.prim _ c) => .ok (some c)
  | some _ => .error .unexpectedTag

/-- Walk the field list of a `CertificateTrustList` SEQUENCE in schema
order: the DEFAULT version (an INTEGER, taken only when present, `v1`
otherwise), the required subject usage, the OPTIONAL list identifier,
sequence number, the required `thisUpdate` time, the OPTIONAL
`nextUpdate` time, the required subject algorithm, the OPTIONAL trusted
subjects, the OPTIONAL [0] EXPLICIT extensions; trailing elements are an
error. -/
def decodeCtlFields (fs : List DerElem) : Except DerError CertificateTrustList :=
  match takeOptTag 2 fs with
  | (verEl, fs) =>
  match
    (match verEl with
    | none => .ok CtlVersion.v1
    | some (.prim _ c) => decodeVersionContent c
    | some _ => .error .unexpectedTag : Except DerError CtlVersion) with
  | .error e => .error e
  | .ok version =>
  match fs with
  | DerElem.cons 48 usageEls :: fs =>
    (match decodeEach decodeOidElem usageEls with
    | .error e => .error e
    | .ok subjectUsage =>
    match takeOptTag 4 fs with
    | (listIdEl, fs) =>
    match decodeOptContent listIdEl with
    | .error e => .error e
    | .ok listIdentifier =>
    match takeOptTag 2 fs with
    | (seqNumEl, fs) =>
    match decodeOptContent seqNumEl with
    | .error e => .error e
    | .ok sequenceNumber =>
    match fs with
    | thisEl :: fs =>
      (match decodeTime thisEl with
      | .error e => .error e
      | .ok thisUpdate =>
      match takeOptMem [23, 24] fs with
      | (nextEl, fs) =>
      match
        (match nextEl with
        | none => .ok (none : Option TimeM)
        | some e => (decodeTime e).map some : Except DerError (Option TimeM)) with
      | .error e => .error e
      | .ok nextUpdate =>
      match fs with
      | algEl :: fs =>
        (match decodeAlgId algEl with
        | .error e => .error e
        | .ok subjectAlgorithm =>
        match takeOptTag 48 fs with
        | (subjEl, fs) =>
        match
          (match subjEl with
          | none => .ok (none : Option (List TrustedSubject))
          | some (.cons _ els) => (decodeEach decodeTrustedSubject els).map some
          | some _ => .error .unexpectedTag : Except DerError (Option (List TrustedSubject))) with
        | .error e => .error e
        | .ok trustedSubjects =>
        match takeOptTag 160 fs with
        | (extEl, fs) =>
        match
          (match extEl with
          | none => .ok (none : Option DerElem)
          | some (.cons _ [inner]) => .ok (some inner)
          | some _ => .error .unexpectedTag : Except DerError (Option DerElem)) with
        | .error e => .error e
        | .ok ctlExtensions =>
        match fs with
        | [] =>
          .ok ⟨version, subjectUsage, listIdentifier, sequenceNumber,
            thisUpdate, nextUpdate, subjectAlgorithm, trustedSubjects,
            ctlExtensions⟩
        | _ :: _ => .error .trailingData)
      | [] => .error .truncated)
    | [] => .error .truncated)
  | _ => .error .unexpectedTag

/-- Decode a type-erased element as a `CertificateTrustList`
(`Any::decode_as::<CertificateTrustList>`): the element must be a
SEQUENCE, whose fields are then walked in schema order. -/
def decodeCtlElem : DerElem → Except DerError CertificateTrustList
  | .cons 48 fs => decodeCtlFields fs
  | _ => .error .unexpectedTag

/-- PKCS#7 content types (`pkcs7::ContentType`). -/
inductive ContentTypeE where
  /-- Plain data content. -/
  | data : ContentTypeE
  /-- Signed data content. -/
  | signedData : ContentTypeE
  /-- Enveloped data content. -/
  | envelopedData : ContentTypeE
  /-- Signed-and-enveloped data content. -/
  | signedAndEnvelopedData : ContentTypeE
  /-- Digested data content. -/
  | digestedData : ContentTypeE
  /-- Encrypted data content. -/
  | encryptedData : ContentTypeE
deriving DecidableEq, Repr

/-- The part of a decoded PKCS#7 `SignedData` that `from_der` consumes:
the encapsulated content type and the optional encapsulated content (a
type-erased element when present).  Other `SignedData` fields are decoded
and discarded upstream. -/
structure SignedDataM where
  /-- Encapsulated content type (`encap_content_info.e_content_type`). -/
  eContentType : OID
  /-- Optional encapsulated content (`encap_content_info.e_content`). -/
  eContent : Option DerElem

/-- A decoded PKCS#7 `ContentInfo` (modelled from the `pkcs7` crate
interface that `from_der` consumes, the crate being an external
dependency): one variant per content type, with only the `SignedData`
payload modelled since the other payloads are never inspected. -/
inductive ContentInfoM where
  /-- SignedData body. -/
  | signedDataCI (sd : SignedDataM) : ContentInfoM
  /-- Data body (payload unused). -/
  | dataCI (payload : Option DerElem) : ContentInfoM
  /-- EnvelopedData body (payload unused). -/
  | envelopedDataCI (payload : Option DerElem) : ContentInfoM
  /-- SignedAndEnvelopedData body (payload unused). -/
  | signedAndEnvelopedDataCI (payload : Option DerElem) : ContentInfoM
  /-- DigestedData body (payload unused). -/
  | digestedDataCI (payload : Option DerElem) : ContentInfoM
  /-- EncryptedData body (payload unused). -/
  | encryptedDataCI (payload : Option DerElem) : ContentInfoM

/-- Content type of a decoded `ContentInfo` (`ContentInfo::content_type`). -/
def contentTypeOf : ContentInfoM → ContentTypeE
  | .signedDataCI _ => .signedData
  | .dataCI _ => .data
  | .envelopedDataCI _ => .envelopedData
  | .signedAndEnvelopedDataCI _ => .signedAndEnvelopedData
  | .digestedDataCI _ => .digestedData
  | .encryptedDataCI _ => .encryptedData

/-- Errors of `CertificateTrustList::from_der` (`CtlError`), without the
I/O variant, which only wraps stream reading. -/
inductive CtlError where
  /-- Invalid DER (`CtlError::Der`). -/
  | der (e : DerError) : CtlError
  /-- Valid PKCS#7 but the wrong content type (`CtlError::ContentType`). -/
  | contentType (ct : ContentTypeE) : CtlError
  /-- Valid PKCS#7 but no encapsulated signed data
  (`CtlError::MissingSignedData`, unused by `from_der`). -/
  | missingSignedData : CtlError
  /-- SignedData whose inner content type is not the certificate-trust-list
  identifier (`CtlError::Content`). -/
  | content (oid : OID) : CtlError
  /-- SignedData that claims a trust list but has no inner content
  (`CtlError::MissingSignedDataContent`). -/
  | missingSignedDataContent : CtlError
deriving DecidableEq, Repr

/-- Model of `CertificateTrustList::from_der` after the outer `ContentInfo`
decode (performed by the external `pkcs7` crate): reject non-`SignedData`
bodies with the observed content type, reject an inner content type other
than `MS_CERT_TRUST_LIST_OID` carrying the actual identifier, reject a
missing encapsulated content, then decode the content as a
`CertificateTrustList`. -/
def fromDer (body : ContentInfoM) : Except CtlError CertificateTrustList :=
  match body with
  | .signedDataCI sd =>
    if sd.eContentType ≠ msCertTrustListOid then
      .error (.content sd.eContentType)
    else
      match sd.eContent with
      | none => .error .missingSignedDataContent
      | some content =>
        match decodeCtlElem content with
        | .error e => .error (.der e)
        | .ok ctl => .ok ctl
  | other => .error (.contentType (contentTypeOf other))

/-- The skip condition of `ctltool`'s `fetch` loop: an entry is skipped
when the user supplied purposes to filter by and any of them intersect the
entry's EKU set. -/
def skipEntry (ekus purposes : Finset OID) : Bool :=
  decide (purposes ≠ ∅) && decide (ekus ∩ purposes ≠ ∅)

/-- The purpose filter as selection: a subject is selected (fetched)
exactly when the `fetch` loop does not skip it. -/
def matchesFilter (ekus wanted : Finset OID) : Bool :=
  !skipEntry ekus wanted

/-- Modelled from the spec: the value of DER INTEGER content octets as a
minimal-length two's-complement big integer (the `der` crate's INTEGER
primitive is an external dependency). -/
def intContentValue (c : Bytes) : Int :=
  let m : Nat := c.foldl (fun acc b => acc * 256 + b) 0
  if c.headD 0 < 128 then (m : Int) else (m : Int) - 2 ^ (8 * c.length)

/-- Modelled from the spec: decode of DER INTEGER content octets, which
rejects non-minimal encodings (a leading 0x00 before a byte without the
sign bit, or a leading 0xFF before a byte with it) rather than normalize
them. -/
def decodeIntegerContent (c : Bytes) : Except DerError Int :=
  match c with
  | [] => .error .truncated
  | [b] => .ok (intContentValue [b])
  | b0 :: b1 :: rest =>
    if b0 = 0 ∧ b1 < 128 then .error .nonCanonicalInteger
    else if b0 = 255 ∧ 128 ≤ b1 then .error .nonCanonicalInteger
    else .ok (intContentValue (b0 :: b1 :: rest))

/-- Modelled from the spec: decode of DER BOOLEAN content octets, a single
byte that must be 0x00 (false) or 0xFF (true); every other content,
including 0x01, is rejected rather than normalized. -/
def decodeBooleanContent (c : Bytes) : Except DerError Bool :=
  match c with
  | [0] => .ok false
  | [255] => .ok true
  | _ => .error .invalidBoolean

/-- The MetaEku DER document of the crate's `test_metaeku` unit test: a
SEQUENCE of the three object identifiers `1.3.6.1.5.5.7.3.2`,
`1.3.6.1.5.5.7.3.4` and `1.3.6.1.5.5.7.3.1`. -/
def metaEkuTestBytes : Bytes :=
  [48, 30, 6, 8, 43, 6, 1, 5, 5, 7, 3, 2, 6, 8, 43, 6, 1, 5, 5, 7, 3, 4,
   6, 8, 43, 6, 1, 5, 5, 7, 3, 1]

/-- Claim C1 (as stated by the spec) fails on the code: the `fetch` loop
skips, rather than selects, entries whose EKU set intersects the wanted
set, so `matches({A}, {B})` is `true` (the spec claims `false`) and
`matches({A,B}, {B,C})` is `false` (the spec claims `true`).  Shown here
at the concrete identifiers `A = [1]`, `B = [2]`, `C = [3]`. -/
theorem purposeFilter_inclusive_counterexample :
    matchesFilter {[1]} {[2]} = true ∧ matchesFilter {[1], [2]} {[2], [3]} = false := by
  constructor <;> decide

/-- Claim C1, amended: the purpose filter used by `fetch` selects a
subject whenever the wanted set is empty, and otherwise selects it if and
only if the subject's EKU set has an EMPTY intersection with the wanted
set (an exclusive filter: entries having any wanted purpose are skipped).
In particular `matches({}, {})`, `matches({A}, {})` and `matches({A}, {B})`
are `true` while `matches({A,B}, {B,C})` is `false`. -/
theorem purposeFilter_semantics :
    (∀ ekus wanted : Finset OID,
      matchesFilter ekus wanted = true ↔ wanted = ∅ ∨ ekus ∩ wanted = ∅)
    ∧ matchesFilter ∅ ∅ = true
    ∧ matchesFilter {[1]} ∅ = true
    ∧ matchesFilter {[1]} {[2]} = true
    ∧ matchesFilter {[1], [2]} {[2], [3]} = false := by
  refine ⟨fun ekus wanted => ?_, by decide, by decide, by decide, by decide⟩
  simp only [matchesFilter, skipEntry, Bool.not_eq_true', Bool.and_eq_false_iff,
    decide_eq_false_iff_not, Decidable.not_not]

/-- Claim C5: a decoded `ContentInfo` whose content type is not
`SignedData` makes `from_der` fail with the content-type error carrying
the actual observed content type; the result does not depend on the
body's payload (no further decoding is performed). -/
theorem fromDer_unexpected_content_type (body : ContentInfoM)
    (h : ∀ sd, body ≠ ContentInfoM.signedDataCI sd) :
    fromDer body = .error (.contentType (contentTypeOf body))
    ∧ contentTypeOf body ≠ ContentTypeE.signedData := by
  cases body with
  | signedDataCI sd => exact absurd rfl (h sd)
  | dataCI p => exact ⟨rfl, fun h => nomatch h⟩
  | envelopedDataCI p => exact ⟨rfl, fun h => nomatch h⟩
  | signedAndEnvelopedDataCI p => exact ⟨rfl, fun h => nomatch h⟩
  | digestedDataCI p => exact ⟨rfl, fun h => nomatch h⟩
  | encryptedDataCI p => exact ⟨rfl, fun h => nomatch h⟩

/-- Witness for C5 at a `Data` body with no payload. -/
theorem fromDer_unexpected_content_type_witness :
    fromDer (ContentInfoM.dataCI none)
        = .error (.contentType (contentTypeOf (ContentInfoM.dataCI none)))
    ∧ contentTypeOf (ContentInfoM.dataCI none) ≠ ContentTypeE.signedData :=
  fromDer_unexpected_content_type (ContentInfoM.dataCI none) (fun _ h => nomatch h)

/-- Claim C6: a `SignedData` body whose encapsulated content type differs
from `MS_CERT_TRUST_LIST_OID` (1.3.6.1.4.1.311.10.1) makes `from_der`
fail with the inner-content-type error carrying the actual identifier;
the encapsulated content itself, quantified over arbitrarily here, is
never decoded. -/
theorem fromDer_unexpected_inner_content_type (sd : SignedDataM)
    (h : sd.eContentType ≠ msCertTrustListOid) :
    fromDer (ContentInfoM.signedDataCI sd) = .error (.content sd.eContentType) := by
  simp [fromDer, h]

/-- Witness for C6 at the content type `1.3.6.1.5.5.7.3.2` with a
present (and malformed) payload. -/
theorem fromDer_unexpected_inner_content_type_witness :
    oidArcsToBytes [1, 3, 6, 1, 5, 5, 7, 3, 2] ≠ msCertTrustListOid
    ∧ fromDer (ContentInfoM.signedDataCI
          ⟨oidArcsToBytes [1, 3, 6, 1, 5, 5, 7, 3, 2], some (DerElem.prim 0 [])⟩)
        = .error (.content (oidArcsToBytes [1, 3, 6, 1, 5, 5, 7, 3, 2])) :=
  ⟨by decide,
   fromDer_unexpected_inner_content_type
     ⟨oidArcsToBytes [1, 3, 6, 1, 5, 5, 7, 3, 2], some (DerElem.prim 0 [])⟩ (by decide)⟩

/-- Claim C4: a `SignedData` body whose inner content type is the
certificate-trust-list identifier but whose optional encapsulated content
is absent makes `from_der` fail with `MissingSignedDataContent`; a
present-but-empty payload (an empty SEQUENCE) does not produce that
error. -/
theorem fromDer_missing_encap_content (sd : SignedDataM)
    (hty : sd.eContentType = msCertTrustListOid) (hc : sd.eContent = none) :
    fromDer (ContentInfoM.signedDataCI sd) = .error .missingSignedDataContent
    ∧ fromDer (ContentInfoM.signedDataCI ⟨msCertTrustListOid, some (DerElem.cons 48 [])⟩)
        ≠ .error .missingSignedDataContent := by
  constructor
  · obtain ⟨ty, c⟩ := sd
    cases hty
    cases hc
    rfl
  · exact fun h => nomatch h

/-- Witness for C4 at the exact trust-list content type with absent
content. -/
theorem fromDer_missing_encap_content_witness :
    fromDer (ContentInfoM.signedDataCI ⟨msCertTrustListOid, none⟩)
        = .error .missingSignedDataContent
    ∧ fromDer (ContentInfoM.signedDataCI ⟨msCertTrustListOid, some (DerElem.cons 48 [])⟩)
        ≠ .error .missingSignedDataContent :=
  fromDer_missing_encap_content ⟨msCertTrustListOid, none⟩ rfl rfl

/-- Claim C8: decoding is deterministic; two invocations of `from_der` on
identical inputs produce identical results, value or error. -/
theorem fromDer_deterministic (b1 b2 : ContentInfoM) (h : b1 = b2) :
    fromDer b1 = fromDer b2 := by
  rw [h]

/-- Witness for C8 at a concrete body. -/
theorem fromDer_deterministic_witness :
    fromDer (ContentInfoM.dataCI none) = fromDer (ContentInfoM.dataCI none) :=
  fromDer_deterministic (ContentInfoM.dataCI none) (ContentInfoM.dataCI none) rfl

/-- Claim C9: an INTEGER whose content carries a non-minimal leading zero
octet (a 0x00 before an octet without the sign bit), and a BOOLEAN whose
content octet is 0x01, both fail to decode with a malformed-DER error
rather than silently normalizing. -/
theorem der_noncanonical_rejection :
    (∀ (b : Nat) (rest : Bytes), b < 128 →
      decodeIntegerContent (0 :: b :: rest) = .error .nonCanonicalInteger)
    ∧ decodeBooleanContent [1] = .error .invalidBoolean := by
  refine ⟨fun b rest h => ?_, rfl⟩
  simp [decodeIntegerContent, h]

/-- Witness for C9 at the two-octet integer content `00 05`. -/
theorem der_noncanonical_rejection_witness :
    decodeIntegerContent [0, 5] = .error .nonCanonicalInteger
    ∧ decodeBooleanContent [1] = .error .invalidBoolean :=
  ⟨(der_noncanonical_rejection).1 5 [] (by decide), (der_noncanonical_rejection).2⟩

/-- Contribution of a single candidate attribute value to the sequence
produced by the extractor: nothing when the OCTET STRING wrapper fails to
decode, a single error element when the wrapped bytes fail to decode as a
MetaEku document, and the decoded identifiers in order otherwise. -/
def valueContribution (value : DerElem) : List (Except DerError OID) :=
  match decodeAsOctetString value with
  | .error _ => []
  | .ok o =>
    match metaEkuFromDer o with
    | .error e => [.error e]
    | .ok oids => oids.map Except.ok

/-- The extractor output is the concatenation, in encounter order, of the
per-value contributions. -/
theorem extendedKeyUsages_eq_contrib (ts : TrustedSubject) :
    extendedKeyUsages ts = (metaEkuValues ts).flatMap valueContribution := by
  unfold extendedKeyUsages
  rw [List.flatMap_assoc]
  congr 1
  funext v
  cases hv : decodeAsOctetString v with
  | error e => simp [valueContribution, hv, exceptToList, Except.map]
  | ok o =>
    cases hm : metaEkuFromDer o with
    | error e => simp [valueContribution, hv, hm, exceptToList, flattenOk, Except.map]
    | ok oids => simp [valueContribution, hv, hm, exceptToList, flattenOk, Except.map]

/-- Claim C2 (as stated by the spec) fails on the code: a value of a
matching meta-EKU attribute that is not an OCTET STRING (here an INTEGER,
`prim 2 [0]`) fails the first decode layer, yet the extractor yields the
empty sequence with no error element — the failure is silently swallowed
because the iterator of the outer `Result` is empty on `Err`. -/
theorem ekuWrapperError_swallowed_counterexample :
    decodeAsOctetString (DerElem.prim 2 [0]) = .error .unexpectedTag
    ∧ extendedKeyUsages
        ⟨[170], some [⟨msCertPropIdMetaEkusOid, [DerElem.prim 2 [0]]⟩]⟩ = [] :=
  ⟨rfl, rfl⟩

/-- Claim C2, amended: only a decode failure at the second layer (the
wrapped bytes as a MetaEku SEQUENCE OF OBJECT IDENTIFIER) surfaces as an
error element of the produced sequence; a failure at the first layer
(decoding the value as an OCTET STRING wrapper) silently skips that value,
contributing no element at all. -/
theorem ekuDecodeFailure_surfacing :
    (∀ ts : TrustedSubject,
      extendedKeyUsages ts = (metaEkuValues ts).flatMap valueContribution)
    ∧ (∀ (value : DerElem) (e : DerError),
        decodeAsOctetString value = .error e → valueContribution value = [])
    ∧ (∀ (value : DerElem) (o : Bytes) (e : DerError),
        decodeAsOctetString value = .ok o → metaEkuFromDer o = .error e →
        valueContribution value = [.error e]) := by
  refine ⟨extendedKeyUsages_eq_contrib, ?_, ?_⟩
  · intro value e h
    simp [valueContribution, h]
  · intro value o e h1 h2
    simp [valueContribution, h1, h2]

/-- Witness for C2: a non-OCTET-STRING value contributes nothing; an
OCTET STRING wrapping bytes that are not a MetaEku document contributes a
single error element. -/
theorem ekuDecodeFailure_surfacing_witness :
    valueContribution (DerElem.prim 2 [0]) = []
    ∧ valueContribution (DerElem.prim 4 [5]) = [.error .unexpectedTag] :=
  ⟨ekuDecodeFailure_surfacing.2.1 (DerElem.prim 2 [0]) .unexpectedTag rfl,
   ekuDecodeFailure_surfacing.2.2 (DerElem.prim 4 [5]) [5] .unexpectedTag rfl rfl⟩

/-- Chain lemma: a run of OCTET-STRING-wrapped values each of which
decodes as a MetaEku document contributes exactly the concatenation of the
decoded identifier lists, in order, each wrapped in `Ok`. -/
theorem contribChain (vals : List (Bytes × List OID))
    (h : ∀ p ∈ vals, metaEkuFromDer p.1 = Except.ok p.2) :
    (vals.map fun p => DerElem.prim 4 p.1).flatMap valueContribution
      = (vals.flatMap fun p => p.2).map Except.ok := by
  induction vals with
  | nil => rfl
  | cons p ps ih =>
    have hp := h p (List.mem_cons_self p ps)
    simp only [List.map_cons, List.flatMap_cons, List.map_append]
    rw [ih fun q hq => h q (List.mem_cons_of_mem p hq)]
    simp [valueContribution, decodeAsOctetString, hp]

/-- Claim C3: the extractor yields, for a subject with one meta-EKU
attribute, the identifiers decoded from each OCTET-STRING-wrapped MetaEku
value, flattened in encounter order without deduplication; in particular,
for the crate's test document, exactly `1.3.6.1.5.5.7.3.2`,
`1.3.6.1.5.5.7.3.4`, `1.3.6.1.5.5.7.3.1` in this order. -/
theorem ekuExtraction_flatten_order :
    (∀ (ident : Bytes) (vals : List (Bytes × List OID)),
      (∀ p ∈ vals, metaEkuFromDer p.1 = Except.ok p.2) →
      extendedKeyUsages
          ⟨ident, some [⟨msCertPropIdMetaEkusOid, vals.map fun p => DerElem.prim 4 p.1⟩]⟩
        = (vals.flatMap fun p => p.2).map Except.ok)
    ∧ extendedKeyUsages
          ⟨[170], some [⟨msCertPropIdMetaEkusOid, [DerElem.prim 4 metaEkuTestBytes]⟩]⟩
        = [Except.ok (oidArcsToBytes [1, 3, 6, 1, 5, 5, 7, 3, 2]),
           Except.ok (oidArcsToBytes [1, 3, 6, 1, 5, 5, 7, 3, 4]),
           Except.ok (oidArcsToBytes [1, 3, 6, 1, 5, 5, 7, 3, 1])] := by
  constructor
  · intro ident vals h
    rw [extendedKeyUsages_eq_contrib]
    have hv : metaEkuValues
        ⟨ident, some [⟨msCertPropIdMetaEkusOid, vals.map fun p => DerElem.prim 4 p.1⟩]⟩
        = vals.map fun p => DerElem.prim 4 p.1 := by
      simp [metaEkuValues]
    rw [hv, contribChain vals h]
  · rfl

/-- Witness for C3 at the test document wrapped as a single value. -/
theorem ekuExtraction_flatten_order_witness :
    extendedKeyUsages
        ⟨[1], some [⟨msCertPropIdMetaEkusOid,
          [(metaEkuTestBytes,
            [oidArcsToBytes [1, 3, 6, 1, 5, 5, 7, 3, 2],
             oidArcsToBytes [1, 3, 6, 1, 5, 5, 7, 3, 4],
             oidArcsToBytes [1, 3, 6, 1, 5, 5, 7, 3, 1]])].map
            fun p => DerElem.prim 4 p.1⟩]⟩
      = ([(metaEkuTestBytes,
            [oidArcsToBytes [1, 3, 6, 1, 5, 5, 7, 3, 2],
             oidArcsToBytes [1, 3, 6, 1, 5, 5, 7, 3, 4],
             oidArcsToBytes [1, 3, 6, 1, 5, 5, 7, 3, 1]])].flatMap
          fun p => p.2).map Except.ok :=
  ekuExtraction_flatten_order.1 [1] _ (by intro p hp; rw [List.mem_singleton] at hp; subst hp; rfl)

/-- Claim C10: the extractor draws elements only from attributes whose
type identifier is exactly `1.3.6.1.4.1.311.10.11.9` (content octets
`2B 06 01 04 01 82 37 0A 0B 09`); a subject with absent attributes, or
with attributes of other types only, yields the empty sequence with no
error, and the output is unchanged by discarding non-matching attributes. -/
theorem ekuAttributeFiltering :
    msCertPropIdMetaEkusOid = [43, 6, 1, 4, 1, 130, 55, 10, 11, 9]
    ∧ (∀ ident : Bytes, extendedKeyUsages ⟨ident, none⟩ = [])
    ∧ (∀ (ident : Bytes) (attrs : List AttributeM),
        (∀ a ∈ attrs, a.oid ≠ msCertPropIdMetaEkusOid) →
        extendedKeyUsages ⟨ident, some attrs⟩ = [])
    ∧ (∀ (ident : Bytes) (attrs : List AttributeM),
        extendedKeyUsages ⟨ident, some attrs⟩
          = extendedKeyUsages
              ⟨ident, some (attrs.filter fun a => a.oid = msCertPropIdMetaEkusOid)⟩) := by
  refine ⟨by decide, fun ident => rfl, ?_, ?_⟩
  · intro ident attrs h
    rw [extendedKeyUsages_eq_contrib]
    have : metaEkuValues ⟨ident, some attrs⟩ = [] := by
      simp only [metaEkuValues, Option.toList_some, List.flatMap_singleton, id]
      rw [List.filter_eq_nil_iff.2 ?_]
      · rfl
      · intro a ha
        simpa using h a ha
    rw [this]
    rfl
  · intro ident attrs
    rw [extendedKeyUsages_eq_contrib, extendedKeyUsages_eq_contrib]
    congr 1
    simp [metaEkuValues, List.filter_filter]

/-- Witness for C10 at a subject whose only attribute has a different
type identifier. -/
theorem ekuAttributeFiltering_witness :
    extendedKeyUsages ⟨[9], some [⟨[1], [DerElem.prim 4 []]⟩]⟩ = [] :=
  ekuAttributeFiltering.2.2.1 [9] [⟨[1], [DerElem.prim 4 []]⟩]
    (by intro a ha; rw [List.mem_singleton] at ha; subst ha; decide)

/-- Decoding inverts encoding for object identifier elements. -/
theorem decodeOidElem_encodeOid (o : OID) : decodeOidElem (encodeOid o) = .ok o := rfl

/-- Decoding inverts encoding for `Time` elements. -/
theorem decodeTime_encodeTime (t : TimeM) : decodeTime (encodeTime t) = .ok t := by
  cases t <;> rfl

/-- Decoding inverts encoding for algorithm identifiers. -/
theorem decodeAlgId_encodeAlgId (a : AlgorithmIdentifierM) :
    decodeAlgId (encodeAlgId a) = .ok a := by
  obtain ⟨oid, par⟩ := a
  cases par <;> rfl

/-- Decoding inverts encoding for attributes. -/
theorem decodeAttribute_encodeAttribute (a : AttributeM) :
    decodeAttribute (encodeAttribute a) = .ok a := by
  obtain ⟨oid, vals⟩ := a
  rfl

/-- Decoding a mapped list inverts per-element encoding. -/
theorem decodeEach_encode {α : Type} (dec : DerElem → Except DerError α)
    (enc : α → DerElem) (h : ∀ x, dec (enc x) = .ok x) (l : List α) :
    decodeEach dec (l.map enc) = .ok l := by
  induction l with
  | nil => rfl
  | cons x xs ih => simp [decodeEach, h x, ih]

/-- Decoding inverts encoding for trusted subjects. -/
theorem decodeTrustedSubject_encodeTrustedSubject (ts : TrustedSubject) :
    decodeTrustedSubject (encodeTrustedSubject ts) = .ok ts := by
  obtain ⟨ident, attrs⟩ := ts
  cases attrs with
  | none => rfl
  | some attrs =>
    simp [encodeTrustedSubject, decodeTrustedSubject,
      decodeEach_encode decodeAttribute encodeAttribute decodeAttribute_encodeAttribute]

/-- Specialization of `decodeEach_encode` to object identifier lists. -/
theorem decodeEach_oid (l : List OID) :
    decodeEach decodeOidElem (l.map encodeOid) = .ok l :=
  decodeEach_encode decodeOidElem encodeOid decodeOidElem_encodeOid l

/-- Specialization of `decodeEach_encode` to trusted subject lists. -/
theorem decodeEach_subject (l : List TrustedSubject) :
    decodeEach decodeTrustedSubject (l.map encodeTrustedSubject) = .ok l :=
  decodeEach_encode decodeTrustedSubject encodeTrustedSubject
    decodeTrustedSubject_encodeTrustedSubject l

/-- Tag of a primitive element. -/
theorem derTag_prim (t : Nat) (c : Bytes) : derTag (DerElem.prim t c) = t := rfl

/-- Tag of a constructed element. -/
theorem derTag_cons (t : Nat) (ch : List DerElem) : derTag (DerElem.cons t ch) = t := rfl

/-- An encoded algorithm identifier is a SEQUENCE element. -/
theorem derTag_encodeAlgId (a : AlgorithmIdentifierM) : derTag (encodeAlgId a) = 48 := rfl

set_option maxHeartbeats 3200000 in
/-- The schema field walk inverts the field encoder on every value (the
version field being emitted as absent, each OPTIONAL field as absent or
present according to the value). -/
theorem decodeCtlFields_encodeCtlRest (v : CertificateTrustList) :
    decodeCtlFields (encodeCtlRest v) = .ok v := by
  obtain ⟨ver, su, li, sn, tu, nu, alg, tsj, ext⟩ := v
  cases ver
  rcases li with _ | li <;>
    rcases sn with _ | sn <;>
    rcases tu with tc | tc <;>
    rcases nu with _ | (nc | nc) <;>
    rcases tsj with _ | tsj <;>
    rcases ext with _ | ext <;>
    simp [decodeCtlFields, encodeCtlRest, takeOptTag, takeOptMem, derTag_prim,
      derTag_cons, derTag_encodeAlgId, Except.map, decodeOptContent,
      decodeVersionContent, decodeTime, encodeTime, decodeAlgId_encodeAlgId,
      decodeEach_oid, decodeEach_subject]

set_option maxHeartbeats 3200000 in
/-- The schema field walk also accepts an explicit encoding of the
DEFAULT version field. -/
theorem decodeCtlFields_explicitVersion (v : CertificateTrustList) :
    decodeCtlFields (DerElem.prim 2 [0] :: encodeCtlRest v) = .ok v := by
  obtain ⟨ver, su, li, sn, tu, nu, alg, tsj, ext⟩ := v
  cases ver
  rcases li with _ | li <;>
    rcases sn with _ | sn <;>
    rcases tu with tc | tc <;>
    rcases nu with _ | (nc | nc) <;>
    rcases tsj with _ | tsj <;>
    rcases ext with _ | ext <;>
    simp [decodeCtlFields, encodeCtlRest, takeOptTag, takeOptMem, derTag_prim,
      derTag_cons, derTag_encodeAlgId, Except.map, decodeOptContent,
      decodeVersionContent, decodeTime, encodeTime, decodeAlgId_encodeAlgId,
      decodeEach_oid, decodeEach_subject]

/-- Claim C7: encoding a legally constructed `CertificateTrustList` and
decoding the result reproduces an equal value; the DEFAULT version field
(always the default `v1`) contributes no element on encode, absent
OPTIONAL fields contribute no elements, and the decoder accepts both the
omitted and the explicit encoding of the version field. -/
theorem ctl_encode_decode_roundtrip :
    (∀ v : CertificateTrustList, decodeCtlElem (encodeCtl v) = .ok v)
    ∧ (∀ v : CertificateTrustList, encodeCtl v = DerElem.cons 48 (encodeCtlRest v))
    ∧ (∀ v : CertificateTrustList,
        decodeCtlElem (DerElem.cons 48 (DerElem.prim 2 [0] :: encodeCtlRest v)) = .ok v)
    ∧ (∀ (su : List OID) (tu : TimeM) (alg : AlgorithmIdentifierM),
        encodeCtl ⟨.v1, su, none, none, tu, none, alg, none, none⟩
          = DerElem.cons 48
              [DerElem.cons 48 (su.map encodeOid), encodeTime tu, encodeAlgId alg]) := by
  have hver : ∀ v : CertificateTrustList,
      encodeCtl v = DerElem.cons 48 (encodeCtlRest v) := by
    intro v
    obtain ⟨ver, su, li, sn, tu, nu, alg, tsj, ext⟩ := v
    cases ver
    simp [encodeCtl, encodeVersionPart]
  refine ⟨?_, hver, ?_, ?_⟩
  · intro v
    rw [hver v]
    exact decodeCtlFields_encodeCtlRest v
  · intro v
    exact decodeCtlFields_explicitVersion v
  · intro su tu alg
    simp [encodeCtl, encodeVersionPart, encodeCtlRest]

end WindowsCtl
